import Mathlib

/-!
Verification of the atc build-execution engine components: the Timeout and
Compose step combinators of the `exec` package and the pipeline configuration
validator of the `config` package.  Pure functions are translated directly
from the Go sources; the concurrent `Run` lifecycles are embedded as functions
over an explicit schedule of loop events (child completion, timer firing,
external signals), mirroring the `select` loops of the sources.
-/

namespace Atc

/-- Errors by identity.  `interrupted` is the exec package sentinel
`ErrInterrupted`; `stepTimedOut` is `ErrStepTimedOut`
(`errors.New("process-exceeded-timeout-limit")`); `parseFail s` stands for the
error returned by `time.ParseDuration` on the ill-formed input `s`; `err s` is
any other error value, identified by its message. -/
inductive GoError : Type where
  | interrupted
  | stepTimedOut
  | parseFail (s : String)
  | err (s : String)
deriving DecidableEq, Repr

/-- The `os.Signal` values the engine uses: `os.Kill` and `os.Interrupt`. -/
inductive GoSignal : Type where
  | kill
  | interrupt
deriving DecidableEq, Repr

/-! ## Go `time.ParseDuration` -/

/-- Consume leading decimal digits, accumulating their value
(Go `leadingInt`, overflow check omitted: the engine only uses parse
success/failure and the magnitude of well-formed durations). -/
def leadingInt : List Char → Nat → Nat × List Char
  | [], acc => (acc, [])
  | c :: rest, acc =>
    if c.isDigit then leadingInt rest (acc * 10 + (c.toNat - '0'.toNat))
    else (acc, c :: rest)

/-- Consume leading digits of a fractional part, returning the digits' value
and the scale 10^digits (Go `leadingFraction`). -/
def leadingFraction : List Char → Nat → Nat → Nat × Nat × List Char
  | [], f, scale => (f, scale, [])
  | c :: rest, f, scale =>
    if c.isDigit then leadingFraction rest (f * 10 + (c.toNat - '0'.toNat)) (scale * 10)
    else (f, scale, c :: rest)

/-- Take the maximal prefix of characters that are neither digits nor a dot:
the unit token of one duration component. -/
def takeUnit : List Char → List Char × List Char
  | [] => ([], [])
  | c :: rest =>
    if c == '.' || c.isDigit then ([], c :: rest)
    else
      let (u, r) := takeUnit rest
      (c :: u, r)

/-- The unit table of Go `time.ParseDuration`, in nanoseconds. -/
def unitNanos (u : String) : Option Nat :=
  if u = "ns" then Option.some 1
  else if u = "us" then Option.some 1000
  else if u = "µs" then Option.some 1000
  else if u = "μs" then Option.some 1000
  else if u = "ms" then Option.some 1000000
  else if u = "s" then Option.some 1000000000
  else if u = "m" then Option.some 60000000000
  else if u = "h" then Option.some 3600000000000
  else Option.none

/-- The component loop of `time.ParseDuration`: repeatedly parse
`[digits][.digits]unit`.  The fuel argument bounds the recursion; every
successful round consumes at least one character, so `length + 1` fuel is
never exhausted. -/
def parseDurationLoop : Nat → List Char → Nat → Option Nat
  | 0, _, _ => Option.none
  | _ + 1, [], acc => Option.some acc
  | fuel + 1, c :: srest, acc =>
    let s := c :: srest
    if !(c == '.' || c.isDigit) then Option.none
    else
      let pl := s.length
      let (v, s1) := leadingInt s 0
      let pre := decide (s1.length ≠ pl)
      let (f, scale, s2, post) :=
        match s1 with
        | '.' :: rest =>
          let pl2 := rest.length
          let (f, scale, r) := leadingFraction rest 0 1
          (f, scale, r, decide (r.length ≠ pl2))
        | _ => (0, 1, s1, false)
      if !pre && !post then Option.none
      else
        let (u, s3) := takeUnit s2
        if u.isEmpty then Option.none
        else
          match unitNanos (String.mk u) with
          | Option.none => Option.none
          | Option.some unit =>
            parseDurationLoop fuel s3 (acc + (v * unit + (f * unit) / scale))

/-- Modelled from the spec: duration strings are parsed with Go's
`time.ParseDuration`, which belongs to the Go standard library and is not part
of this repository.  Ported from its documented grammar
(`[-+]?([0-9]*(\.[0-9]*)?[a-z]+)+`, with the special case `"0"`); overflow
checks are omitted and the fractional part is accumulated with natural
division, which does not affect which strings parse.  Returns the duration in
nanoseconds. -/
def parseDuration (s : String) : Option Int :=
  let chars := s.data
  let (neg, chars1) :=
    match chars with
    | c :: rest => if c == '-' || c == '+' then (c == '-', rest) else (false, chars)
    | [] => (false, chars)
  if chars1 = ['0'] then Option.some 0
  else if chars1.isEmpty then Option.none
  else
    match parseDurationLoop (chars1.length + 1) chars1 0 with
    | Option.none => Option.none
    | Option.some n => Option.some (if neg then -(n : Int) else (n : Int))

/-! ## The timeout combinator (`exec` package, `timeout` step)

`timeout.Run` invokes the child step (`ifrit.Invoke(ts.runStep)`), closes
`ready`, parses the duration, and then enters a `select` loop over the child's
completion channel, the timer, and the external signal channel.  The loop is
embedded as a function over the ordered schedule of events it observes. -/

/-- One event observed by timeout's `select` loop. -/
inductive TEv : Type where
  | childRet (e : Option GoError)
  | timerFire
  | extSignal (s : GoSignal)
deriving DecidableEq, Repr

/-- The observable outcome of one `timeout.Run` invocation. -/
structure TimeoutExec : Type where
  childInvoked : Bool
  readyClosed : Bool
  timedOut : Bool
  signalsToChild : List GoSignal
  result : Option GoError
deriving DecidableEq, Repr

/-- The `dance` loop of `timeout.Run`: state is `(timedOut, timeoutErr,
signals already forwarded to the child)`; the loop ends at the first child
return.  Returns `none` when the schedule never lets the child return (the Go
loop would block forever). -/
def timeoutLoop : List TEv → Bool → Option GoError → List GoSignal →
    Option (Bool × Option GoError × List GoSignal × Option GoError)
  | [], _, _, _ => Option.none
  | TEv.childRet e :: _, t, te, sigs => Option.some (t, te, sigs, e)
  | TEv.timerFire :: rest, _, _, sigs =>
    timeoutLoop rest true (Option.some GoError.stepTimedOut) (sigs ++ [GoSignal.kill])
  | TEv.extSignal s :: rest, t, te, sigs => timeoutLoop rest t te (sigs ++ [s])

/-- `timeout.Run`: the child is invoked first (`ifrit.Invoke`, which also
waits for the child to become ready), `ready` is closed, and only then is the
duration parsed; a parse error is returned at that point, leaving the child
running.  Otherwise the `dance` loop runs over the schedule, and afterwards a
pending `timeoutErr` takes precedence over the child's `runErr`. -/
def timeoutRun (duration : String) (events : List TEv) : Option TimeoutExec :=
  match parseDuration duration with
  | Option.none =>
    Option.some
      { childInvoked := true, readyClosed := true, timedOut := false,
        signalsToChild := [], result := Option.some (GoError.parseFail duration) }
  | Option.some _ =>
    match timeoutLoop events false Option.none [] with
    | Option.none => Option.none
    | Option.some (t, te, sigs, runErr) =>
      Option.some
        { childInvoked := true, readyClosed := true, timedOut := t,
          signalsToChild := sigs,
          result := match te with
                    | Option.some e => Option.some e
                    | Option.none => runErr }

/-- The signal (if any) the loop forwards to the child on an event: a kill on
timer firing, the signal itself on an external signal. -/
def TEv.sigOf : TEv → Option GoSignal
  | TEv.timerFire => Option.some GoSignal.kill
  | TEv.extSignal s => Option.some s
  | TEv.childRet _ => Option.none

/-- Whether a schedule contains a timer firing. -/
def hasTimerFire : List TEv → Bool
  | [] => false
  | TEv.timerFire :: _ => true
  | _ :: rest => hasTimerFire rest

/-- A typed result slot, mirroring the pointer passed to `Step.Result`:
`Success`, `VersionInfo` or `ExitStatus`. -/
inductive ResultSlot : Type where
  | success (b : Bool)
  | versionInfo (v : String)
  | exitStatus (n : Int)
deriving DecidableEq, Repr

/-- Whether a slot is the `*Success` slot. -/
def ResultSlot.isSuccessSlot : ResultSlot → Bool
  | ResultSlot.success _ => true
  | _ => false

/-- The inner step's `Result` behavior: for each slot type, whether the step
populates it and with what value.  A slot the step does not populate is left
untouched (its zero value for a fresh variable). -/
structure StepResultBehavior : Type where
  populatesSuccess : Bool
  successValue : Bool
  populatesVersionInfo : Bool
  versionInfoValue : String
  populatesExitStatus : Bool
  exitStatusValue : Int
deriving DecidableEq, Repr

/-- `timeout.Result`: a type switch on the slot.  Only `*Success` is handled:
a fresh `Success` variable (zero value `false`) is offered to the inner step's
`Result`, and the slot is set to `success && !ts.timedOut`, returning `true`.
Every other slot type returns `false` with the slot untouched. -/
def timeoutResult (inner : StepResultBehavior) (timedOut : Bool) :
    ResultSlot → Bool × ResultSlot
  | ResultSlot.success _ =>
    let success : Bool := if inner.populatesSuccess then inner.successValue else false
    (true, ResultSlot.success (success && !timedOut))
  | slot => (false, slot)

/-! ## The Compose combinator (`exec` package)

The implementation file of `Compose` is not among the sources; only its test
suite (`exec/compose_test.go`) is.  The combinator is therefore modelled from
the specification, constrained by the observable behavior the tests assert.
Notably, the tests require the composed step's `ready` channel to stay open
while the first child is starting and running, and to close when the second
child becomes ready (`Consistently(process.Ready()).ShouldNot(BeClosed())`
while the first step runs; `Eventually(process.Ready()).Should(BeClosed())`
while the second step runs). -/

/-- When, relative to the two children's phases, the single external signal of
a scenario is delivered.  A phase that the run never reaches means the signal
is never delivered. -/
inductive SigTime : Type where
  | never
  | duringAStart
  | duringARun
  | duringBStart
  | duringBRun
deriving DecidableEq, Repr

/-- A child step's scripted behavior: whether it closes its ready channel
before returning, what its `Run` returns when left alone, and what it returns
once a signal has been forwarded to it. -/
structure ChildBehavior : Type where
  becomesReady : Bool
  runResult : Option GoError
  signalResult : Option GoError
deriving DecidableEq, Repr

/-- Step identities observable through factory `Using` calls and `Release`. -/
inductive StepRef : Type where
  | inStep
  | childA
  | childB
deriving DecidableEq, Repr

/-- Observable events of one `compose.Run` invocation, in order:
factory `Using` calls (with the previous step and registry passed), child `Run`
starts, children closing their ready channels, signals forwarded to children,
child `Run` returns, and the composed step closing its own ready channel. -/
inductive CEv : Type where
  | usingA (prev : StepRef) (repo : Nat)
  | runA
  | readyA
  | sigA
  | retA (e : Option GoError)
  | usingB (prev : StepRef) (repo : Nat)
  | runB
  | readyB
  | sigB
  | retB (e : Option GoError)
  | composeReady
deriving DecidableEq, Repr

/-- Modelled from the spec: the first leg of `compose.Run` (the `compose.go`
implementation is absent from the sources).  Child A runs in the background on
a private ready channel; an external signal delivered during this phase is
forwarded to A and the loop then waits for A to return.  Returns A's trace,
A's `Run` return value, and whether a signal was observed. -/
def runChildA (a : ChildBehavior) (sig : SigTime) : List CEv × Option GoError × Bool :=
  match sig with
  | SigTime.duringAStart => ([CEv.sigA, CEv.retA a.signalResult], a.signalResult, true)
  | SigTime.duringARun =>
    if a.becomesReady then
      ([CEv.readyA, CEv.sigA, CEv.retA a.signalResult], a.signalResult, true)
    else
      ([CEv.retA a.runResult], a.runResult, false)
  | _ =>
    ((if a.becomesReady then [CEv.readyA] else []) ++ [CEv.retA a.runResult],
     a.runResult, false)

/-- Modelled from the spec: the second leg of `compose.Run`.  Child B runs
with the composed step's own signal channel and ready channel, so B closing
its ready channel closes the composed step's ready channel, an external signal
during this phase reaches B, and the composed step's status is B's status. -/
def runChildB (b : ChildBehavior) (sig : SigTime) : List CEv × Option GoError :=
  match sig with
  | SigTime.duringBStart => ([CEv.sigB, CEv.retB b.signalResult], b.signalResult)
  | SigTime.duringBRun =>
    if b.becomesReady then
      ([CEv.readyB, CEv.composeReady, CEv.sigB, CEv.retB b.signalResult], b.signalResult)
    else
      ([CEv.retB b.runResult], b.runResult)
  | _ =>
    ((if b.becomesReady then [CEv.readyB, CEv.composeReady] else []) ++
       [CEv.retB b.runResult],
     b.runResult)

/-- Modelled from the spec: `compose.Run`.  Child A is constructed from the
first factory with the composed step's previous step and registry and run to
completion.  If A's `Run` returned an error it is the composed step's status
and child B is never constructed.  If a signal was observed during A, the
composed step returns the `Interrupted` sentinel without constructing B
(a step must not start new children after observing a signal).  Otherwise
child B is constructed from the second factory with A as the previous step and
the same registry, and run as the composed step's second leg.  Returns the
event trace and the composed step's `Run` return value. -/
def composeRun (a b : ChildBehavior) (sig : SigTime) (repo : Nat) :
    List CEv × Option GoError :=
  let (aEvs, aRet, signalled) := runChildA a sig
  let pre := CEv.usingA StepRef.inStep repo :: CEv.runA :: aEvs
  match aRet with
  | Option.some e => (pre, Option.some e)
  | Option.none =>
    if signalled then
      (pre, Option.some GoError.interrupted)
    else
      let (bEvs, bRet) := runChildB b sig
      (pre ++ CEv.usingB StepRef.childA repo :: CEv.runB :: bEvs, bRet)

/-- The number of `Using` calls on the second factory in a trace. -/
def usingBCount : List CEv → Nat
  | [] => 0
  | CEv.usingB _ _ :: rest => usingBCount rest + 1
  | _ :: rest => usingBCount rest

/-- Whether the second child was constructed during a run. -/
def bConstructed : List CEv → Bool
  | [] => false
  | CEv.usingB _ _ :: _ => true
  | _ :: rest => bConstructed rest

/-- The children constructed during a run, in construction order. -/
def constructedChildren : List CEv → List StepRef
  | [] => []
  | CEv.usingA _ _ :: rest => StepRef.childA :: constructedChildren rest
  | CEv.usingB _ _ :: rest => StepRef.childB :: constructedChildren rest
  | _ :: rest => constructedChildren rest

/-- Modelled from the spec: `compose.Release` releases every child that was
constructed, in reverse construction order. -/
def composeRelease (t : List CEv) : List StepRef :=
  (constructedChildren t).reverse

/-- Modelled from the spec: after `Run`, `compose.Result` delegates to the
second child (compose_test.go: getting the result "delegates to the second
source"); there is no delegate when the second child was never constructed. -/
def composeResultDelegate (t : List CEv) : Option StepRef :=
  if bConstructed t then Option.some StepRef.childB else Option.none

/-- Checks that every `composeReady` event in a trace immediately follows a
`readyB` event: the composed step's ready channel closes exactly when the
second child becomes ready, and no later. -/
def composeReadyWellPlaced : List CEv → Bool
  | [] => true
  | CEv.readyB :: CEv.composeReady :: rest => composeReadyWellPlaced rest
  | CEv.composeReady :: _ => false
  | _ :: rest => composeReadyWellPlaced rest

/-! ## Pipeline configuration validation (`config` package)

Direct translation of `ValidateConfig` and its helpers.  The `atc`
configuration types they consume (`atc.Config`, `atc.PlanConfig`, …) are not
among the sources and are modelled with exactly the fields the validator
reads; Go nil-able pointers and slices become explicit option constructors.
Errors are identified by their message strings. -/

/-- Modelled from the spec: `atc.TaskConfig`; the validator only tests the
pointer for nil, so a single representative field suffices. -/
structure TaskConfig : Type where
  platform : String
deriving DecidableEq, Repr

mutual
/-- Modelled from the spec: `atc.PlanConfig`, with exactly the fields
`validatePlan` and its helpers read.  `conditions` and `hasParams` record
whether the corresponding nil-able fields are present (only their nil-ness is
inspected); `doSeq`, `aggregate`, `tryPlan`, `ensure`, `success` and `failure`
mirror the nil-able `Do`, `Aggregate`, `Try`, `Ensure`, `Success` and
`Failure` pointers. -/
inductive PlanConfig : Type where
  | mk
    (conditions : Bool)
    (get : String)
    (put : String)
    (task : String)
    (resource : String)
    (passed : List String)
    (trigger : Bool)
    (privileged : Bool)
    (taskConfigPath : String)
    (taskConfig : Option TaskConfig)
    (hasParams : Bool)
    (timeoutStr : String)
    (doSeq : OptPlanSequence)
    (aggregate : OptPlanSequence)
    (tryPlan : OptPlanConfig)
    (ensure : OptPlanConfig)
    (success : OptPlanConfig)
    (failure : OptPlanConfig)

/-- A nil-able `*PlanConfig`. -/
inductive OptPlanConfig : Type where
  | none
  | some (plan : PlanConfig)

/-- A nil-able `*PlanSequence` (or nil-able `PlanSequence` slice). -/
inductive OptPlanSequence : Type where
  | none
  | some (seq : PlanSequence)

/-- `atc.PlanSequence`: a list of plan configurations. -/
inductive PlanSequence : Type where
  | nil
  | cons (head : PlanConfig) (tail : PlanSequence)
end

def PlanConfig.conditions : PlanConfig → Bool
  | PlanConfig.mk c _ _ _ _ _ _ _ _ _ _ _ _ _ _ _ _ _ => c

def PlanConfig.get : PlanConfig → String
  | PlanConfig.mk _ g _ _ _ _ _ _ _ _ _ _ _ _ _ _ _ _ => g

def PlanConfig.put : PlanConfig → String
  | PlanConfig.mk _ _ p _ _ _ _ _ _ _ _ _ _ _ _ _ _ _ => p

def PlanConfig.task : PlanConfig → String
  | PlanConfig.mk _ _ _ t _ _ _ _ _ _ _ _ _ _ _ _ _ _ => t

def PlanConfig.resource : PlanConfig → String
  | PlanConfig.mk _ _ _ _ r _ _ _ _ _ _ _ _ _ _ _ _ _ => r

def PlanConfig.passed : PlanConfig → List String
  | PlanConfig.mk _ _ _ _ _ p _ _ _ _ _ _ _ _ _ _ _ _ => p

def PlanConfig.trigger : PlanConfig → Bool
  | PlanConfig.mk _ _ _ _ _ _ t _ _ _ _ _ _ _ _ _ _ _ => t

def PlanConfig.privileged : PlanConfig → Bool
  | PlanConfig.mk _ _ _ _ _ _ _ p _ _ _ _ _ _ _ _ _ _ => p

def PlanConfig.taskConfigPath : PlanConfig → String
  | PlanConfig.mk _ _ _ _ _ _ _ _ p _ _ _ _ _ _ _ _ _ => p

def PlanConfig.taskConfig : PlanConfig → Option TaskConfig
  | PlanConfig.mk _ _ _ _ _ _ _ _ _ tc _ _ _ _ _ _ _ _ => tc

def PlanConfig.doSeq : PlanConfig → OptPlanSequence
  | PlanConfig.mk _ _ _ _ _ _ _ _ _ _ _ _ d _ _ _ _ _ => d

def PlanConfig.aggregate : PlanConfig → OptPlanSequence
  | PlanConfig.mk _ _ _ _ _ _ _ _ _ _ _ _ _ a _ _ _ _ => a

def PlanConfig.ensure : PlanConfig → OptPlanConfig
  | PlanConfig.mk _ _ _ _ _ _ _ _ _ _ _ _ _ _ _ e _ _ => e

def PlanConfig.success : PlanConfig → OptPlanConfig
  | PlanConfig.mk _ _ _ _ _ _ _ _ _ _ _ _ _ _ _ _ s _ => s

def PlanConfig.failure : PlanConfig → OptPlanConfig
  | PlanConfig.mk _ _ _ _ _ _ _ _ _ _ _ _ _ _ _ _ _ f => f

/-- The underlying sequence of a nil-able plan sequence (a nil Go slice ranges
like an empty one). -/
def OptPlanSequence.seq : OptPlanSequence → PlanSequence
  | OptPlanSequence.none => PlanSequence.nil
  | OptPlanSequence.some s => s

/-- Modelled from the spec: `atc.PlanConfig.ResourceName` (the `atc` package is
not among the sources): the explicit `Resource` field when set, otherwise the
step's own resource-identifying name. -/
def PlanConfig.ResourceName (plan : PlanConfig) : String :=
  if plan.resource ≠ "" then plan.resource
  else if plan.get ≠ "" then plan.get
  else plan.put

/-- `atc.GroupConfig`: the fields `validateGroups` reads. -/
structure GroupConfig : Type where
  name : String
  jobs : List String
  resources : List String
deriving DecidableEq, Repr

/-- `atc.ResourceConfig`: the fields `validateResources` reads. -/
structure ResourceConfig : Type where
  name : String
  type : String
deriving DecidableEq, Repr

/-- `atc.PluginConfig`: the fields `validatePlugins` reads. -/
structure PluginConfig : Type where
  name : String
  image : String
deriving DecidableEq, Repr

/-- `atc.JobInputConfig`: the fields the validator reads. -/
structure JobInputConfig : Type where
  rawName : String
  resource : String
  passed : List String
  trigger : Bool
deriving DecidableEq, Repr

/-- Modelled from the spec: `atc.JobInputConfig.Name`: the explicit raw name
when set, otherwise the resource name. -/
def JobInputConfig.Name (input : JobInputConfig) : String :=
  if input.rawName ≠ "" then input.rawName else input.resource

/-- `atc.JobOutputConfig`: the fields the validator reads. -/
structure JobOutputConfig : Type where
  resource : String
deriving DecidableEq, Repr

/-- `atc.JobConfig`: the fields `validateJobs` reads.  `plan` mirrors the
nil-able `Plan` slice. -/
structure JobConfig : Type where
  name : String
  plan : OptPlanSequence
  taskConfig : Option TaskConfig
  taskConfigPath : String
  inputConfigs : List JobInputConfig
  outputConfigs : List JobOutputConfig

/-- Modelled from the spec: `atc.JobConfig.Inputs`, read by the validator only
for the resources the job interacts with; modelled as the job's declared input
configurations. -/
def JobConfig.Inputs (job : JobConfig) : List JobInputConfig :=
  job.inputConfigs

/-- Modelled from the spec: `atc.JobConfig.Outputs`; modelled as the job's
declared output configurations. -/
def JobConfig.Outputs (job : JobConfig) : List JobOutputConfig :=
  job.outputConfigs

/-- `atc.Config`: the fields `ValidateConfig` reads. -/
structure Config : Type where
  groups : List GroupConfig
  resources : List ResourceConfig
  jobs : List JobConfig
  plugins : List PluginConfig

/-- Modelled from the spec: `atc.ResourceConfigs.Lookup` (the `atc` package is
not among the sources): the first resource configuration with the given
name. -/
def ResourceConfigs.Lookup (resources : List ResourceConfig) (name : String) :
    Option ResourceConfig :=
  resources.find? fun r => r.name == name

/-- Modelled from the spec: `atc.JobConfigs.Lookup`: the first job
configuration with the given name. -/
def JobConfigs.Lookup (jobs : List JobConfig) (name : String) : Option JobConfig :=
  jobs.find? fun j => j.name == name

/-- `compositeErr`: nil for no messages, otherwise the messages joined with
newlines. -/
def compositeErr (errorMessages : List String) : Option String :=
  if errorMessages.length = 0 then Option.none
  else Option.some (String.intercalate "\n" errorMessages)

/-- First-seen index per name, mirroring the `names map[string]int` used by
the duplicate-name checks. -/
def lookupName (names : List (String × Nat)) (n : String) : Option Nat :=
  (names.find? fun p => p.1 == n).map fun p => p.2

/-- `doesAnyStepMatch`: whether any step of the sequence, descending into
`Aggregate` and `Do` sub-sequences, satisfies the predicate. -/
def doesAnyStepMatch (pred : PlanConfig → Bool) : PlanSequence → Bool
  | PlanSequence.nil => false
  | PlanSequence.cons p rest =>
    (match p with
     | PlanConfig.mk _ _ _ _ _ _ _ _ _ _ _ _ doSeq aggregate _ _ _ _ =>
       (match aggregate with
        | OptPlanSequence.some seq => doesAnyStepMatch pred seq
        | OptPlanSequence.none => false) ||
       (match doSeq with
        | OptPlanSequence.some seq => doesAnyStepMatch pred seq
        | OptPlanSequence.none => false)) ||
    pred p || doesAnyStepMatch pred rest

/-- `hasConditionals`: some step has a non-nil `Conditions` field. -/
def hasConditionals (planSequence : PlanSequence) : Bool :=
  doesAnyStepMatch (fun step => step.conditions) planSequence

/-- `hasHooks`: some step has a `Failure`, `Ensure` or `Success` hook. -/
def hasHooks (planSequence : PlanSequence) : Bool :=
  doesAnyStepMatch
    (fun step =>
      (match step.failure with
       | OptPlanConfig.some _ => true
       | OptPlanConfig.none => false) ||
      (match step.ensure with
       | OptPlanConfig.some _ => true
       | OptPlanConfig.none => false) ||
      (match step.success with
       | OptPlanConfig.some _ => true
       | OptPlanConfig.none => false))
    planSequence

/-- `validateConditionals`: a plan may not mix conditions and hooks. -/
def validateConditionals (identifier : String) (planSequence : PlanSequence) :
    List String :=
  if hasConditionals planSequence && hasHooks planSequence then
    [identifier ++ " has both conditions and hooks specified"]
  else []

/-- The accumulator of action kinds found on one plan step
(`foundTypes`). -/
structure FoundTypes : Type where
  identifier : String
  found : List String

/-- `foundTypes.Find`: record an action kind (set semantics of the Go
map). -/
def FoundTypes.Find (ft : FoundTypes) (name : String) : FoundTypes :=
  if ft.found.contains name then ft else { ft with found := ft.found ++ [name] }

/-- Insert a string into an ascending list (helper for `sort.Strings`). -/
def insertString (s : String) : List String → List String
  | [] => [s]
  | t :: rest => if s ≤ t then s :: t :: rest else t :: insertString s rest

/-- `sort.Strings`: sort ascending. -/
def sortStrings : List String → List String
  | [] => []
  | s :: rest => insertString s (sortStrings rest)

/-- `foundTypes.IsValid`: exactly one action kind must be present; the
multiple-actions message lists the kinds sorted. -/
def FoundTypes.IsValid (ft : FoundTypes) : Bool × String :=
  if ft.found.length = 0 then
    (false, ft.identifier ++ " has no action specified")
  else if ft.found.length > 1 then
    (false,
     ft.identifier ++ " has multiple actions specified (" ++
       String.intercalate ", " (sortStrings ft.found) ++ ")")
  else (true, "")

/-- `validateInapplicableFields`: which of the named fields are set on the
plan although inapplicable to its action kind. -/
def validateInapplicableFields (inapplicableFields : List String)
    (plan : PlanConfig) (identifier : String) : List String :=
  let foundFields := inapplicableFields.filter fun field =>
    if field == "resource" then plan.resource != ""
    else if field == "passed" then plan.passed.length != 0
    else if field == "trigger" then plan.trigger
    else if field == "privileged" then plan.privileged
    else if field == "config" then plan.taskConfig.isSome
    else if field == "file" then plan.taskConfigPath != ""
    else false
  if foundFields.length > 0 then
    [identifier ++ " has invalid fields specified (" ++
       String.intercalate ", " foundFields ++ ")"]
  else []

/-- Whether a job named in `passed` interacts with the given resource through
its inputs or outputs. -/
def passedJobInteracts (jobConfig : JobConfig) (resourceName : String) : Bool :=
  jobConfig.Inputs.any (fun jobInput => jobInput.resource == resourceName) ||
  jobConfig.Outputs.any (fun jobOutput => jobOutput.resource == resourceName)

/-- The `plan.Passed` loop of the get branch of `validatePlan`: each named job
must exist and must interact with the step's resource. -/
def validateGetPassed (c : Config) (subIdentifier : String) (planGet : String)
    (resourceName : String) (passed : List String) : List String :=
  (passed.map fun job =>
    match JobConfigs.Lookup c.jobs job with
    | Option.none =>
      [subIdentifier ++ ".passed references an unknown job (\x27" ++ job ++ "\x27)"]
    | Option.some jobConfig =>
      if passedJobInteracts jobConfig resourceName then []
      else
        [subIdentifier ++ ".passed references a job (\x27" ++ job ++
           "\x27) which doesn\x27t interact with the resource (\x27" ++ planGet ++ "\x27)"]).flatten

mutual
/-- `validatePlan`: exactly one action kind per step, then per-kind checks,
then recursion into `Ensure`, `Success` and `Failure` hooks, and the timeout
duration must parse. -/
def validatePlan (c : Config) (identifier : String) (plan : PlanConfig) :
    List String :=
  match plan with
  | PlanConfig.mk conditions get put task resource passed trigger privileged
      taskConfigPath taskConfig hasParams timeoutStr doSeq aggregate tryPlan
      ensure success failure =>
    let planV : PlanConfig :=
      PlanConfig.mk conditions get put task resource passed trigger privileged
        taskConfigPath taskConfig hasParams timeoutStr doSeq aggregate tryPlan
        ensure success failure
    let ft0 : FoundTypes := { identifier := identifier, found := [] }
    let ft1 := if get ≠ "" then ft0.Find "get" else ft0
    let ft2 := if put ≠ "" then ft1.Find "put" else ft1
    let ft3 := if task ≠ "" then ft2.Find "task" else ft2
    let ft4 :=
      match doSeq with
      | OptPlanSequence.some _ => ft3.Find "do"
      | OptPlanSequence.none => ft3
    let ft5 :=
      match aggregate with
      | OptPlanSequence.some _ => ft4.Find "aggregate"
      | OptPlanSequence.none => ft4
    let ft6 :=
      match tryPlan with
      | OptPlanConfig.some _ => ft5.Find "try"
      | OptPlanConfig.none => ft5
    let validRes := ft6.IsValid
    if validRes.1 = false then [validRes.2]
    else
      let mainErrs :=
        match doSeq with
        | OptPlanSequence.some seq => validatePlanDoSeq c identifier 0 seq
        | OptPlanSequence.none =>
          match aggregate with
          | OptPlanSequence.some seq => validatePlanAggSeq c identifier 0 seq
          | OptPlanSequence.none =>
            if get ≠ "" then
              let subIdentifier := identifier ++ ".get." ++ get
              validateInapplicableFields ["privileged", "config", "file"] planV
                  subIdentifier ++
                (if resource ≠ "" then
                   match ResourceConfigs.Lookup c.resources resource with
                   | Option.some _ => []
                   | Option.none =>
                     [subIdentifier ++
                        " refers to a resource that does not exist (\x27" ++
                        resource ++ "\x27)"]
                 else
                   match ResourceConfigs.Lookup c.resources get with
                   | Option.some _ => []
                   | Option.none =>
                     [subIdentifier ++ " refers to a resource that does not exist"]) ++
                validateGetPassed c subIdentifier get planV.ResourceName passed
            else if put ≠ "" then
              let subIdentifier := identifier ++ ".put." ++ put
              validateInapplicableFields
                  ["passed", "trigger", "privileged", "config", "file"] planV
                  subIdentifier ++
                (if resource ≠ "" then
                   match ResourceConfigs.Lookup c.resources resource with
                   | Option.some _ => []
                   | Option.none =>
                     [subIdentifier ++
                        " refers to a resource that does not exist (\x27" ++
                        resource ++ "\x27)"]
                 else
                   match ResourceConfigs.Lookup c.resources put with
                   | Option.some _ => []
                   | Option.none =>
                     [subIdentifier ++ " refers to a resource that does not exist"])
            else if task ≠ "" then
              let subIdentifier := identifier ++ ".task." ++ task
              (if taskConfig.isNone && taskConfigPath = "" then
                 [subIdentifier ++ " does not specify any task configuration"]
               else []) ++
                validateInapplicableFields ["resource", "passed", "trigger"] planV
                  subIdentifier ++
                (if hasParams then
                   [subIdentifier ++ " specifies params, which should be config.params"]
                 else [])
            else
              match tryPlan with
              | OptPlanConfig.some p => validatePlan c (identifier ++ ".try") p
              | OptPlanConfig.none => []
      let ensureErrs :=
        match ensure with
        | OptPlanConfig.some p => validatePlan c (identifier ++ ".ensure") p
        | OptPlanConfig.none => []
      let successErrs :=
        match success with
        | OptPlanConfig.some p => validatePlan c (identifier ++ ".success") p
        | OptPlanConfig.none => []
      let failureErrs :=
        match failure with
        | OptPlanConfig.some p => validatePlan c (identifier ++ ".failure") p
        | OptPlanConfig.none => []
      let timeoutErrs :=
        if timeoutStr ≠ "" then
          match parseDuration timeoutStr with
          | Option.some _ => []
          | Option.none =>
            [identifier ++
               ".timeout refers to a duration that could not be parsed (\x27" ++
               timeoutStr ++ "\x27)"]
        else []
      mainErrs ++ ensureErrs ++ successErrs ++ failureErrs ++ timeoutErrs

/-- The `Do` sub-sequence loop of `validatePlan`: sub-identifier
`identifier[i]`. -/
def validatePlanDoSeq (c : Config) (identifier : String) (i : Nat) :
    PlanSequence → List String
  | PlanSequence.nil => []
  | PlanSequence.cons p rest =>
    validatePlan c (identifier ++ "[" ++ toString i ++ "]") p ++
      validatePlanDoSeq c identifier (i + 1) rest

/-- The `Aggregate` sub-sequence loop of `validatePlan`: sub-identifier
`identifier.aggregate[i]`. -/
def validatePlanAggSeq (c : Config) (identifier : String) (i : Nat) :
    PlanSequence → List String
  | PlanSequence.nil => []
  | PlanSequence.cons p rest =>
    validatePlan c (identifier ++ ".aggregate[" ++ toString i ++ "]") p ++
      validatePlanAggSeq c identifier (i + 1) rest
end

/-- The input-config loop of `validateInputOutputConfig`. -/
def validateJobInputs (c : Config) (identifier : String) :
    List JobInputConfig → Nat → List String
  | [], _ => []
  | input :: rest, i =>
    let inputIdentifier :=
      if input.Name == "" then identifier ++ ".inputs[" ++ toString i ++ "]"
      else identifier ++ ".inputs." ++ input.Name
    let resourceErrs :=
      if input.resource == "" then [inputIdentifier ++ " has no resource"]
      else
        match ResourceConfigs.Lookup c.resources input.resource with
        | Option.some _ => []
        | Option.none =>
          [inputIdentifier ++ " has an unknown resource (\x27" ++
             input.resource ++ "\x27)"]
    let passedErrs :=
      (input.passed.map fun job =>
        match JobConfigs.Lookup c.jobs job with
        | Option.some _ => []
        | Option.none =>
          [inputIdentifier ++ ".passed references an unknown job (\x27" ++
             job ++ "\x27)"]).flatten
    resourceErrs ++ passedErrs ++ validateJobInputs c identifier rest (i + 1)

/-- The output-config loop of `validateInputOutputConfig`. -/
def validateJobOutputs (c : Config) (identifier : String) :
    List JobOutputConfig → Nat → List String
  | [], _ => []
  | output :: rest, i =>
    let outputIdentifier := identifier ++ ".outputs[" ++ toString i ++ "]"
    let resourceErrs :=
      if output.resource == "" then [outputIdentifier ++ " has no resource"]
      else
        match ResourceConfigs.Lookup c.resources output.resource with
        | Option.some _ => []
        | Option.none =>
          [outputIdentifier ++ " has an unknown resource (\x27" ++
             output.resource ++ "\x27)"]
    resourceErrs ++ validateJobOutputs c identifier rest (i + 1)

/-- `validateInputOutputConfig`: every declared input and output must name an
existing resource, and input `passed` constraints must name existing jobs. -/
def validateInputOutputConfig (c : Config) (job : JobConfig)
    (identifier : String) : List String :=
  validateJobInputs c identifier job.inputConfigs 0 ++
    validateJobOutputs c identifier job.outputConfigs 0

/-- The group loop of `validateGroups`. -/
def validateGroupsAux (c : Config) : List GroupConfig → List String
  | [] => []
  | group :: rest =>
    (group.jobs.map fun job =>
      match JobConfigs.Lookup c.jobs job with
      | Option.some _ => []
      | Option.none =>
        ["group \x27" ++ group.name ++ "\x27 has unknown job \x27" ++ job ++ "\x27"]).flatten ++
    (group.resources.map fun resource =>
      match ResourceConfigs.Lookup c.resources resource with
      | Option.some _ => []
      | Option.none =>
        ["group \x27" ++ group.name ++ "\x27 has unknown resource \x27" ++
           resource ++ "\x27"]).flatten ++
    validateGroupsAux c rest

/-- `validateGroups`: every group may only reference known jobs and
resources. -/
def validateGroups (c : Config) : Option String :=
  compositeErr (validateGroupsAux c c.groups)

/-- The resource loop of `validateResources`, carrying the first-seen-index
map of names. -/
def validateResourcesAux : List ResourceConfig → Nat → List (String × Nat) →
    List String
  | [], _, _ => []
  | resource :: rest, i, names =>
    let identifier :=
      if resource.name = "" then "resources[" ++ toString i ++ "]"
      else "resources." ++ resource.name
    let dup := lookupName names resource.name
    let dupErrs :=
      match dup with
      | Option.some other =>
        ["resources[" ++ toString other ++ "] and resources[" ++ toString i ++
           "] have the same name (\x27" ++ resource.name ++ "\x27)"]
      | Option.none => []
    let names2 :=
      match dup with
      | Option.some _ => names
      | Option.none =>
        if resource.name ≠ "" then names ++ [(resource.name, i)] else names
    let nameErrs := if resource.name = "" then [identifier ++ " has no name"] else []
    let typeErrs := if resource.type = "" then [identifier ++ " has no type"] else []
    dupErrs ++ nameErrs ++ typeErrs ++ validateResourcesAux rest (i + 1) names2

/-- `validateResources`: resources must have unique, non-empty names and a
type. -/
def validateResources (c : Config) : Option String :=
  compositeErr (validateResourcesAux c.resources 0 [])

/-- A plan configuration holding only a `Do` sequence
(`atc.PlanConfig{Do: &job.Plan}`; taking the address of the slice always
yields a non-nil pointer). -/
def planConfigDoOnly (seq : PlanSequence) : PlanConfig :=
  PlanConfig.mk false "" "" "" "" [] false false "" Option.none false ""
    (OptPlanSequence.some seq) OptPlanSequence.none OptPlanConfig.none
    OptPlanConfig.none OptPlanConfig.none OptPlanConfig.none

/-- The job loop of `validateJobs`, carrying the first-seen-index map of
names. -/
def validateJobsAux (c : Config) : List JobConfig → Nat → List (String × Nat) →
    List String
  | [], _, _ => []
  | job :: rest, i, names =>
    let identifier :=
      if job.name = "" then "jobs[" ++ toString i ++ "]"
      else "jobs." ++ job.name
    let dup := lookupName names job.name
    let dupErrs :=
      match dup with
      | Option.some other =>
        ["jobs[" ++ toString other ++ "] and jobs[" ++ toString i ++
           "] have the same name (\x27" ++ job.name ++ "\x27)"]
      | Option.none => []
    let names2 :=
      match dup with
      | Option.some _ => names
      | Option.none => if job.name ≠ "" then names ++ [(job.name, i)] else names
    let nameErrs := if job.name = "" then [identifier ++ " has no name"] else []
    let planMixErrs :=
      match job.plan with
      | OptPlanSequence.some _ =>
        if job.taskConfig.isSome || job.taskConfigPath.length > 0 ||
            job.inputConfigs.length > 0 || job.outputConfigs.length > 0 then
          [identifier ++ " has both a plan and inputs/outputs/build config specified"]
        else []
      | OptPlanSequence.none => []
    let condErrs := validateConditionals (identifier ++ ".plan") job.plan.seq
    let planErrs := validatePlan c (identifier ++ ".plan") (planConfigDoOnly job.plan.seq)
    let ioErrs := validateInputOutputConfig c job identifier
    dupErrs ++ nameErrs ++ planMixErrs ++ condErrs ++ planErrs ++ ioErrs ++
      validateJobsAux c rest (i + 1) names2

/-- `validateJobs`: jobs must have unique, non-empty names, may not mix plans
with declared inputs/outputs/build config, and their plans must validate. -/
def validateJobs (c : Config) : Option String :=
  compositeErr (validateJobsAux c c.jobs 0 [])

/-- The plugin loop of `validatePlugins`, carrying the first-seen-index map of
names. -/
def validatePluginsAux : List PluginConfig → Nat → List (String × Nat) →
    List String
  | [], _, _ => []
  | plugin :: rest, i, names =>
    let identifier :=
      if plugin.name = "" then "plugins[" ++ toString i ++ "]"
      else "plugins." ++ plugin.name
    let dup := lookupName names plugin.name
    let dupErrs :=
      match dup with
      | Option.some other =>
        ["plugins[" ++ toString other ++ "] and plugins[" ++ toString i ++
           "] have the same name (\x27" ++ plugin.name ++ "\x27)"]
      | Option.none => []
    let names2 :=
      match dup with
      | Option.some _ => names
      | Option.none =>
        if plugin.name ≠ "" then names ++ [(plugin.name, i)] else names
    let nameErrs := if plugin.name = "" then [identifier ++ " has no name"] else []
    let imageErrs := if plugin.image = "" then [identifier ++ " has no image"] else []
    dupErrs ++ nameErrs ++ imageErrs ++ validatePluginsAux rest (i + 1) names2

/-- `validatePlugins`: plugins must have unique, non-empty names and an
image. -/
def validatePlugins (c : Config) : Option String :=
  compositeErr (validatePluginsAux c.plugins 0 [])

/-- `InvalidConfigError`: the four section errors of a failed validation. -/
structure InvalidConfigError : Type where
  groupsErr : Option String
  resourcesErr : Option String
  jobsErr : Option String
  pluginsErr : Option String
deriving DecidableEq, Repr

/-- `indent`: prefix every line with a tab. -/
def indent (msgs : String) : String :=
  String.intercalate "\n" ((msgs.splitOn "\n").map fun l => "\t" ++ l)

/-- `InvalidConfigError.Error`: renders the groups, resources and jobs
sections under an "invalid configuration:" header.  The `PluginsErr` field is
not rendered. -/
def InvalidConfigError.Error (e : InvalidConfigError) : String :=
  let errorMsgs := ["invalid configuration:"]
  let errorMsgs :=
    match e.groupsErr with
    | Option.some ge => errorMsgs ++ [indent ("invalid groups:\n" ++ indent ge ++ "\n")]
    | Option.none => errorMsgs
  let errorMsgs :=
    match e.resourcesErr with
    | Option.some re => errorMsgs ++ [indent ("invalid resources:\n" ++ indent re ++ "\n")]
    | Option.none => errorMsgs
  let errorMsgs :=
    match e.jobsErr with
    | Option.some je => errorMsgs ++ [indent ("invalid jobs:\n" ++ indent je ++ "\n")]
    | Option.none => errorMsgs
  String.intercalate "\n" errorMsgs

/-- `ValidateConfig`: run the four section validators; nil when all pass,
otherwise an `InvalidConfigError` holding all four results. -/
def ValidateConfig (c : Config) : Option InvalidConfigError :=
  let groupsErr := validateGroups c
  let resourcesErr := validateResources c
  let jobsErr := validateJobs c
  let pluginsErr := validatePlugins c
  if groupsErr.isNone && resourcesErr.isNone && jobsErr.isNone && pluginsErr.isNone then
    Option.none
  else
    Option.some
      { groupsErr := groupsErr, resourcesErr := resourcesErr,
        jobsErr := jobsErr, pluginsErr := pluginsErr }

/-! ## Theorems -/

/-- Processing a childRet-free prefix of the schedule leaves the loop running
with the timed-out flag, pending timeout error and forwarded signals
accumulated from the prefix. -/
theorem timeoutLoop_append (pre l : List TEv) (t : Bool) (te : Option GoError)
    (sigs : List GoSignal) (h : ∀ e, TEv.childRet e ∉ pre) :
    timeoutLoop (pre ++ l) t te sigs =
      timeoutLoop l (t || hasTimerFire pre)
        (if hasTimerFire pre then Option.some GoError.stepTimedOut else te)
        (sigs ++ pre.filterMap TEv.sigOf) := by
  induction pre generalizing t te sigs with
  | nil => simp [hasTimerFire]
  | cons ev rest ih =>
    have h2 : ∀ e, TEv.childRet e ∉ rest := fun e he => h e (List.mem_cons_of_mem _ he)
    cases ev with
    | childRet e => exact absurd (List.mem_cons_self _ _) (h e)
    | timerFire =>
      rw [List.cons_append]
      simp only [timeoutLoop]
      rw [ih _ _ _ h2]
      simp [hasTimerFire, TEv.sigOf]
    | extSignal s =>
      rw [List.cons_append]
      simp only [timeoutLoop]
      rw [ih _ _ _ h2]
      simp [hasTimerFire, TEv.sigOf]

/-- A schedule prefix containing a timer firing forwards a kill to the
child. -/
theorem kill_mem_of_hasTimerFire (pre : List TEv) (h : hasTimerFire pre = true) :
    GoSignal.kill ∈ pre.filterMap TEv.sigOf := by
  induction pre with
  | nil => simp [hasTimerFire] at h
  | cons ev rest ih =>
    cases ev with
    | childRet e => simpa [TEv.sigOf] using ih (by simpa [hasTimerFire] using h)
    | timerFire => simp [TEv.sigOf]
    | extSignal s =>
      simp only [List.filterMap_cons, TEv.sigOf]
      exact List.mem_cons_of_mem _ (ih (by simpa [hasTimerFire] using h))

/-- C1 counterexample: for the ill-formed duration "banana", `timeout.Run`
does return the parse error, but the child step has already been invoked (and
`ready` closed) before the duration is parsed — refuting "the child step is
never started". -/
theorem timeoutRun_parse_error_counterexample :
    parseDuration "banana" = Option.none ∧
    timeoutRun "banana" [] =
      Option.some
        { childInvoked := true, readyClosed := true, timedOut := false,
          signalsToChild := [], result := Option.some (GoError.parseFail "banana") } :=
  ⟨rfl, rfl⟩

/-- C1 (amended): for every ill-formed duration, `timeout.Run` returns the
parse error without waiting for, or signalling, the child — but only after the
child step has already been invoked, since `ifrit.Invoke(ts.runStep)` precedes
the `time.ParseDuration` call. -/
theorem timeoutRun_parse_error (d : String) (evs : List TEv)
    (h : parseDuration d = Option.none) :
    timeoutRun d evs =
      Option.some
        { childInvoked := true, readyClosed := true, timedOut := false,
          signalsToChild := [], result := Option.some (GoError.parseFail d) } := by
  simp [timeoutRun, h]

/-- C1 witness: the amended theorem at the concrete ill-formed duration
"banana". -/
theorem timeoutRun_parse_error_witness :
    timeoutRun "banana" [TEv.timerFire] =
      Option.some
        { childInvoked := true, readyClosed := true, timedOut := false,
          signalsToChild := [], result := Option.some (GoError.parseFail "banana") } :=
  timeoutRun_parse_error "banana" [TEv.timerFire] rfl

/-- C4 counterexample: with the well-formed duration "1s", when the child
returns the `ErrStepTimedOut` sentinel itself (a nested timeout does) before
any timer firing, the outer `timeout.Run` returns `ErrStepTimedOut` although
its own timer never fired — refuting "if the child's Run returns before the
timer fires, Timeout's Run ... never returns StepTimedOut". -/
theorem timeoutRun_nested_sentinel_counterexample :
    parseDuration "1s" = Option.some 1000000000 ∧
    timeoutRun "1s" [TEv.childRet (Option.some GoError.stepTimedOut)] =
      Option.some
        { childInvoked := true, readyClosed := true, timedOut := false,
          signalsToChild := [], result := Option.some GoError.stepTimedOut } :=
  ⟨rfl, rfl⟩

/-- C4 (amended): for a well-formed duration, when the timer fires before the
child returns, the child is signalled with a kill, the loop keeps waiting for
the child's return, and `Run` returns the `StepTimedOut` sentinel regardless
of the child's own error; when the child returns first, `Run` returns exactly
the child's error (nil on clean completion) and its timed-out flag stays
false — it then returns the `StepTimedOut` sentinel only if the child itself
returned that sentinel.  Without a child return, `Run` does not return at
all. -/
theorem timeoutRun_timer_semantics (d : String) (n : Int) (e : Option GoError)
    (pre rest : List TEv) (hd : parseDuration d = Option.some n)
    (hpre : ∀ x, TEv.childRet x ∉ pre) :
    (hasTimerFire pre = true →
       timeoutRun d (pre ++ TEv.childRet e :: rest) =
         Option.some
           { childInvoked := true, readyClosed := true, timedOut := true,
             signalsToChild := pre.filterMap TEv.sigOf,
             result := Option.some GoError.stepTimedOut } ∧
       GoSignal.kill ∈ pre.filterMap TEv.sigOf) ∧
    (hasTimerFire pre = false →
       timeoutRun d (pre ++ TEv.childRet e :: rest) =
         Option.some
           { childInvoked := true, readyClosed := true, timedOut := false,
             signalsToChild := pre.filterMap TEv.sigOf, result := e }) ∧
    timeoutRun d pre = Option.none := by
  have hloop := timeoutLoop_append pre (TEv.childRet e :: rest) false Option.none [] hpre
  have hnone : timeoutLoop pre false Option.none [] = Option.none := by
    have := timeoutLoop_append pre [] false Option.none [] hpre
    simpa [timeoutLoop] using this
  refine ⟨fun ht => ?_, fun ht => ?_, ?_⟩
  · refine ⟨?_, kill_mem_of_hasTimerFire pre ht⟩
    simp [timeoutRun, hd, hloop, timeoutLoop, ht]
  · simp [timeoutRun, hd, hloop, timeoutLoop, ht]
  · simp [timeoutRun, hd, hnone]

/-- C4 witness: the amended theorem at duration "1s" with the timer firing
before a child return. -/
theorem timeoutRun_timer_semantics_witness :
    timeoutRun "1s" [TEv.timerFire, TEv.childRet (Option.some (GoError.err "boom"))] =
      Option.some
        { childInvoked := true, readyClosed := true, timedOut := true,
          signalsToChild := [GoSignal.kill],
          result := Option.some GoError.stepTimedOut } := by
  have h := timeoutRun_timer_semantics "1s" 1000000000
    (Option.some (GoError.err "boom")) [TEv.timerFire] [] rfl
    (by intro x hx; simp at hx)
  simpa [TEv.sigOf] using (h.1 rfl).1

/-- C5: after a run, `timeout.Result` on a `*Success` slot populates it with
the conjunction of the inner step's reported success and the negation of the
timed-out flag, and reports the slot populated. -/
theorem timeoutResult_success (inner : StepResultBehavior) (timedOut : Bool)
    (b : Bool) (h : inner.populatesSuccess = true) :
    timeoutResult inner timedOut (ResultSlot.success b) =
      (true, ResultSlot.success (inner.successValue && !timedOut)) := by
  simp [timeoutResult, h]

/-- C5 witness: a timed-out run with a successful inner step reports outer
success false. -/
theorem timeoutResult_success_witness :
    timeoutResult
        { populatesSuccess := true, successValue := true,
          populatesVersionInfo := false, versionInfoValue := "",
          populatesExitStatus := false, exitStatusValue := 0 }
        true (ResultSlot.success true) =
      (true, ResultSlot.success false) := by
  have h := timeoutResult_success
    { populatesSuccess := true, successValue := true,
      populatesVersionInfo := false, versionInfoValue := "",
      populatesExitStatus := false, exitStatusValue := 0 }
    true true rfl
  simpa using h

/-- C9: `timeout.Result` on any slot other than `*Success` reports the slot
unpopulated and leaves it unchanged, even for an inner step able to populate
it. -/
theorem timeoutResult_other_slot (inner : StepResultBehavior) (timedOut : Bool)
    (slot : ResultSlot) (h : slot.isSuccessSlot = false) :
    timeoutResult inner timedOut slot = (false, slot) := by
  cases slot with
  | success b => simp [ResultSlot.isSuccessSlot] at h
  | versionInfo v => rfl
  | exitStatus n => rfl

/-- C9 witness: a version-info slot is left unchanged although the inner step
populates version info. -/
theorem timeoutResult_other_slot_witness :
    timeoutResult
        { populatesSuccess := true, successValue := true,
          populatesVersionInfo := true, versionInfoValue := "v1",
          populatesExitStatus := true, exitStatusValue := 3 }
        false (ResultSlot.versionInfo "v1") =
      (false, ResultSlot.versionInfo "v1") :=
  timeoutResult_other_slot _ false (ResultSlot.versionInfo "v1") rfl

/-- C2 counterexample: with a first child that becomes ready and is then
interrupted by an external signal, the run completes with the first child
having become ready (`readyA` in the trace) while the composed step's ready
channel was never closed (`composeReady` absent) — refuting "the ready channel
is closed once the currently-running child (child A, when A is running) has
become ready", exactly as compose_test.go asserts
(`Consistently(process.Ready()).ShouldNot(BeClosed())` while the first step
runs). -/
theorem composeReady_counterexample :
    CEv.readyA ∈
      (composeRun
        { becomesReady := true, runResult := Option.none,
          signalResult := Option.some GoError.interrupted }
        { becomesReady := true, runResult := Option.none,
          signalResult := Option.some GoError.interrupted }
        SigTime.duringARun 0).1 ∧
    CEv.composeReady ∉
      (composeRun
        { becomesReady := true, runResult := Option.none,
          signalResult := Option.some GoError.interrupted }
        { becomesReady := true, runResult := Option.none,
          signalResult := Option.some GoError.interrupted }
        SigTime.duringARun 0).1 := by
  decide

/-- C2 (amended): the composed step's ready channel closes exactly when the
second child becomes ready — it is closed in a run if and only if the second
child closed its ready channel, and every closing immediately follows the
second child's ready; it is never closed while the first child is starting or
running. -/
theorem composeReady_tracks_second_child (a b : ChildBehavior) (sig : SigTime)
    (repo : Nat) :
    ((composeRun a b sig repo).1.contains CEv.composeReady =
       (composeRun a b sig repo).1.contains CEv.readyB) ∧
    composeReadyWellPlaced (composeRun a b sig repo).1 = true := by
  rcases a with ⟨aReady, aRun, aSig⟩
  rcases b with ⟨bReady, bRun, bSig⟩
  cases sig <;> cases aReady <;> cases aRun <;> cases aSig <;> cases bReady <;>
      cases bRun <;> cases bSig <;>
    exact ⟨rfl, rfl⟩

/-- C3: in any run whose trace shows the first child's `Run` returning a
non-nil error — whether it failed to start or errored after starting, and
whether or not it had been signalled — the second factory is never consulted
and the composed step returns that error. -/
theorem compose_first_error (a b : ChildBehavior) (sig : SigTime) (repo : Nat)
    (e : GoError)
    (h : CEv.retA (Option.some e) ∈ (composeRun a b sig repo).1) :
    usingBCount (composeRun a b sig repo).1 = 0 ∧
    (composeRun a b sig repo).2 = Option.some e := by
  rcases a with ⟨aReady, aRun, aSig⟩
  rcases b with ⟨bReady, bRun, bSig⟩
  cases sig <;> cases aReady <;> cases aRun <;> cases aSig <;> cases bReady <;>
      cases bRun <;> cases bSig <;>
    simp_all [composeRun, runChildA, runChildB, usingBCount]

/-- C3 witness: a first child that errors after starting; the second factory
is never used and the error is the composed step's status. -/
theorem compose_first_error_witness :
    usingBCount
        (composeRun
          { becomesReady := true, runResult := Option.some (GoError.err "nope"),
            signalResult := Option.some GoError.interrupted }
          { becomesReady := true, runResult := Option.none,
            signalResult := Option.some GoError.interrupted }
          SigTime.never 0).1 = 0 ∧
    (composeRun
        { becomesReady := true, runResult := Option.some (GoError.err "nope"),
          signalResult := Option.some GoError.interrupted }
        { becomesReady := true, runResult := Option.none,
          signalResult := Option.some GoError.interrupted }
        SigTime.never 0).2 = Option.some (GoError.err "nope") :=
  compose_first_error
    { becomesReady := true, runResult := Option.some (GoError.err "nope"),
      signalResult := Option.some GoError.interrupted }
    { becomesReady := true, runResult := Option.none,
      signalResult := Option.some GoError.interrupted }
    SigTime.never 0 (GoError.err "nope") (by decide)

/-- C6: for a first child that honors the cancellation contract (returning
the `Interrupted` sentinel once signalled), a signal delivered while the first
child is starting or running is forwarded to it, the second factory is never
consulted, and the composed step returns the `Interrupted` sentinel. -/
theorem compose_signal_during_first (a b : ChildBehavior) (repo : Nat)
    (sig : SigTime)
    (hconf : a.signalResult = Option.some GoError.interrupted)
    (hsig : sig = SigTime.duringAStart ∨
      (sig = SigTime.duringARun ∧ a.becomesReady = true)) :
    CEv.sigA ∈ (composeRun a b sig repo).1 ∧
    usingBCount (composeRun a b sig repo).1 = 0 ∧
    (composeRun a b sig repo).2 = Option.some GoError.interrupted := by
  rcases a with ⟨aReady, aRun, aSig⟩
  rcases hsig with h | ⟨h, hr⟩ <;> subst h <;>
    simp_all [composeRun, runChildA, usingBCount]

/-- C6 witness: a signal delivered while the first child is starting. -/
theorem compose_signal_during_first_witness :
    CEv.sigA ∈
      (composeRun
        { becomesReady := false, runResult := Option.none,
          signalResult := Option.some GoError.interrupted }
        { becomesReady := true, runResult := Option.none,
          signalResult := Option.some GoError.interrupted }
        SigTime.duringAStart 0).1 ∧
    usingBCount
        (composeRun
          { becomesReady := false, runResult := Option.none,
            signalResult := Option.some GoError.interrupted }
          { becomesReady := true, runResult := Option.none,
            signalResult := Option.some GoError.interrupted }
          SigTime.duringAStart 0).1 = 0 ∧
    (composeRun
        { becomesReady := false, runResult := Option.none,
          signalResult := Option.some GoError.interrupted }
        { becomesReady := true, runResult := Option.none,
          signalResult := Option.some GoError.interrupted }
        SigTime.duringAStart 0).2 = Option.some GoError.interrupted :=
  compose_signal_during_first
    { becomesReady := false, runResult := Option.none,
      signalResult := Option.some GoError.interrupted }
    { becomesReady := true, runResult := Option.none,
      signalResult := Option.some GoError.interrupted }
    0 SigTime.duringAStart rfl (Or.inl rfl)

/-- C7: when the first child's `Run` returns nil (and no signal interrupts the
first leg), the second child is constructed by calling the second factory's
`Using` with the first child as previous step and the shared registry, the
second child is run, the composed step's status is whatever the second
child's `Run` returned, and `Result` delegates to the second child. -/
theorem compose_second_after_clean_first (a b : ChildBehavior) (repo : Nat)
    (sig : SigTime) (ha : a.runResult = Option.none)
    (hsig : sig = SigTime.never ∨ sig = SigTime.duringBStart ∨
      sig = SigTime.duringBRun) :
    CEv.usingB StepRef.childA repo ∈ (composeRun a b sig repo).1 ∧
    CEv.runB ∈ (composeRun a b sig repo).1 ∧
    (∀ e, CEv.retB e ∈ (composeRun a b sig repo).1 →
      (composeRun a b sig repo).2 = e) ∧
    composeResultDelegate (composeRun a b sig repo).1 = Option.some StepRef.childB := by
  rcases a with ⟨aReady, aRun, aSig⟩
  rcases b with ⟨bReady, bRun, bSig⟩
  rcases hsig with h | h | h <;> subst h <;> cases aReady <;> cases bReady <;>
      cases bRun <;> cases bSig <;>
    simp_all [composeRun, runChildA, runChildB, composeResultDelegate, bConstructed]

/-- C7 witness: a clean first child followed by a clean second child; the
second factory is used with the first child as predecessor, the second child
runs, its nil status is the composed status, and `Result` delegates to it. -/
theorem compose_second_after_clean_first_witness :
    CEv.usingB StepRef.childA 7 ∈
      (composeRun
        { becomesReady := true, runResult := Option.none,
          signalResult := Option.some GoError.interrupted }
        { becomesReady := true, runResult := Option.none,
          signalResult := Option.some GoError.interrupted }
        SigTime.never 7).1 ∧
    CEv.runB ∈
      (composeRun
        { becomesReady := true, runResult := Option.none,
          signalResult := Option.some GoError.interrupted }
        { becomesReady := true, runResult := Option.none,
          signalResult := Option.some GoError.interrupted }
        SigTime.never 7).1 ∧
    (∀ e, CEv.retB e ∈
        (composeRun
          { becomesReady := true, runResult := Option.none,
            signalResult := Option.some GoError.interrupted }
          { becomesReady := true, runResult := Option.none,
            signalResult := Option.some GoError.interrupted }
          SigTime.never 7).1 →
      (composeRun
        { becomesReady := true, runResult := Option.none,
          signalResult := Option.some GoError.interrupted }
        { becomesReady := true, runResult := Option.none,
          signalResult := Option.some GoError.interrupted }
        SigTime.never 7).2 = e) ∧
    composeResultDelegate
        (composeRun
          { becomesReady := true, runResult := Option.none,
            signalResult := Option.some GoError.interrupted }
          { becomesReady := true, runResult := Option.none,
            signalResult := Option.some GoError.interrupted }
          SigTime.never 7).1 = Option.some StepRef.childB :=
  compose_second_after_clean_first
    { becomesReady := true, runResult := Option.none,
      signalResult := Option.some GoError.interrupted }
    { becomesReady := true, runResult := Option.none,
      signalResult := Option.some GoError.interrupted }
    7 SigTime.never rfl (Or.inl rfl)

/-- C8: `compose.Release` releases exactly the children that were
constructed, in reverse construction order: the second then the first when
both were constructed, and only the first when the second never was. -/
theorem composeRelease_reverse (a b : ChildBehavior) (sig : SigTime) (repo : Nat) :
    composeRelease (composeRun a b sig repo).1 =
      (if bConstructed (composeRun a b sig repo).1 = true then
         [StepRef.childB, StepRef.childA]
       else [StepRef.childA]) := by
  rcases a with ⟨aReady, aRun, aSig⟩
  rcases b with ⟨bReady, bRun, bSig⟩
  cases sig <;> cases aReady <;> cases aRun <;> cases aSig <;> cases bReady <;>
      cases bRun <;> cases bSig <;>
    rfl

/-- C10: when groups, resources and jobs validate cleanly but plugins
validation fails, `ValidateConfig` returns a non-nil `InvalidConfigError`
carrying the plugins error, yet the error's rendered message is just the bare
"invalid configuration:" header — and the rendering never depends on the
`PluginsErr` field at all. -/
theorem validateConfig_plugins_error_unrendered (c : Config) (m : String)
    (hg : validateGroups c = Option.none)
    (hr : validateResources c = Option.none)
    (hj : validateJobs c = Option.none)
    (hp : validatePlugins c = Option.some m) :
    ValidateConfig c =
      Option.some
        { groupsErr := Option.none, resourcesErr := Option.none,
          jobsErr := Option.none, pluginsErr := Option.some m } ∧
    InvalidConfigError.Error
        { groupsErr := Option.none, resourcesErr := Option.none,
          jobsErr := Option.none, pluginsErr := Option.some m } =
      "invalid configuration:" ∧
    (∀ g r j p q,
      InvalidConfigError.Error
          { groupsErr := g, resourcesErr := r, jobsErr := j, pluginsErr := p } =
        InvalidConfigError.Error
          { groupsErr := g, resourcesErr := r, jobsErr := j, pluginsErr := q }) := by
  refine ⟨?_, rfl, ?_⟩
  · simp [ValidateConfig, hg, hr, hj, hp]
  · intro g r j p q
    simp only [InvalidConfigError.Error]

/-- C10 witness: the empty configuration with a single image-less plugin. -/
theorem validateConfig_plugins_error_unrendered_witness :
    ValidateConfig
        { groups := [], resources := [], jobs := [],
          plugins := [{ name := "p", image := "" }] } =
      Option.some
        { groupsErr := Option.none, resourcesErr := Option.none,
          jobsErr := Option.none,
          pluginsErr := Option.some "plugins.p has no image" } ∧
    InvalidConfigError.Error
        { groupsErr := Option.none, resourcesErr := Option.none,
          jobsErr := Option.none,
          pluginsErr := Option.some "plugins.p has no image" } =
      "invalid configuration:" :=
  have h := validateConfig_plugins_error_unrendered
    { groups := [], resources := [], jobs := [],
      plugins := [{ name := "p", image := "" }] }
    "plugins.p has no image" rfl rfl rfl rfl
  ⟨h.1, h.2.1⟩

end Atc
